import Mathlib

/-!
Shallow embedding of the vector-store subsystem of the repository
(AlloyDB / Cloud SQL VectorStore revisions): distance strategies,
index-option generation, index lifecycle DDL, document ingestion and
similarity search.  External collaborators (connection pool, embedder,
uuid generator, JSON codec of the standard library) are passed in as
explicit function parameters; every statement the store would send to
the pool is recorded so that theorems can talk about the exact SQL
traffic.  Go runtime panics (out-of-range indexing, failed type
assertions) are modelled as a distinguished `GoResult.panicked`
constructor, kept apart from returned `error` values.
-/

namespace LangchainGo

/-- Result of a Go call: a returned value, a returned error, or a runtime
panic (modelled explicitly because a panic is not a returned error). -/
inductive GoResult (α : Type) where
  | ok (val : α)
  | error (msg : String)
  | panicked (msg : String)
  deriving DecidableEq, Repr

/-- Model of a dynamically-typed Go value (`any`) as it appears in
document metadata maps and decoded result rows. -/
inductive Value where
  | null
  | str (s : String)
  | int (n : Int)
  | float64 (q : ℚ)
  | bytes (b : String)
  deriving DecidableEq, Repr

/-- Embedding of Go `strings.Join`: concatenate with a separator between
consecutive elements. -/
def joinSep (sep : String) : List String → String
  | [] => ""
  | [x] => x
  | x :: y :: rest => x ++ sep ++ joinSep sep (y :: rest)

/-- Go `%T` rendering of a `Value`, used in error messages of
`processResultsToDocuments`. -/
def Value.goTypeName : Value → String
  | .null => "<nil>"
  | .str _ => "string"
  | .int _ => "int"
  | .float64 _ => "float64"
  | .bytes _ => "[]uint8"

/-! ## DistanceStrategy (src/vectorstores/alloydb/distance_strategy.go)

The Go source models the strategy as an interface with three struct
implementations `Euclidean`, `CosineDistance`, `InnerProduct`; each method
is a constant.  The closed set of implementations becomes an inductive. -/

inductive DistanceStrategy where
  | euclidean
  | cosineDistance
  | innerProduct
  deriving DecidableEq, Repr, Fintype

/-- The `String()` method of each strategy struct. -/
def DistanceStrategy.string : DistanceStrategy → String
  | .euclidean => "euclidean"
  | .cosineDistance => "cosineDistance"
  | .innerProduct => "innerProduct"

/-- The `operator()` method of each strategy struct. -/
def DistanceStrategy.operator : DistanceStrategy → String
  | .euclidean => "<->"
  | .cosineDistance => "<=>"
  | .innerProduct => "<#>"

/-- The `searchFunction()` method of each strategy struct. -/
def DistanceStrategy.searchFunction : DistanceStrategy → String
  | .euclidean => "vector_l2_ops"
  | .cosineDistance => "vector_cosine_ops"
  | .innerProduct => "vector_ip_ops"

/-! ## Index tuning options (src/vectorstores/alloydb/distance_strategy.go)

The Go `BaseIndex.options` field has type `any` and holds one of the four
option structs (`hnswOptions`, `ivfflatOptions`, `ivfOptions`,
`scannOptions`) or something else entirely; the runtime type assertions of
`indexOptions` become a match on an `Option IndexOptions`. -/

inductive IndexOptions where
  | hnsw (m efConstruction : Int)
  | ivfflat (lists : Int)
  | ivf (lists : Int) (quantizer : String)
  | scann (numLeaves : Int) (quantizer : String)
  deriving DecidableEq, Repr

/-- Go `%v` rendering of the `options any` field, used by the default
branch error message of `indexOptions`. -/
def govReprOptions : Option IndexOptions → String
  | none => "<nil>"
  | some (.hnsw m ef) => "\x7b" ++ toString m ++ " " ++ toString ef ++ "\x7d"
  | some (.ivfflat l) => "\x7b" ++ toString l ++ "\x7d"
  | some (.ivf l q) => "\x7b" ++ toString l ++ " " ++ q ++ "\x7d"
  | some (.scann n q) => "\x7b" ++ toString n ++ " " ++ q ++ "\x7d"

/-- BaseIndex of the alloydb revision (vectorestores.go / distance_strategy.go):
name, index type, tuning options, distance strategy and partial-index
predicates. -/
structure BaseIndex where
  name : String
  indexType : String
  options : Option IndexOptions
  distanceStrategy : DistanceStrategy
  partialIndexes : List String
  deriving DecidableEq, Repr

/-- Embedding of `(index *BaseIndex) indexOptions() (string, error)` from
src/vectorstores/alloydb/distance_strategy.go lines 77-110: a failed type
assertion on the options field, or an unknown index type, yields an error. -/
def BaseIndex.indexOptions (index : BaseIndex) : Except String String :=
  match index.indexType with
  | "hnsw" =>
    match index.options with
    | some (.hnsw m efConstruction) =>
        .ok ("(m = " ++ toString m ++ ", ef_construction = " ++ toString efConstruction ++ ")")
    | _ => .error "invalid HNSW options"
  | "ivfflat" =>
    match index.options with
    | some (.ivfflat lists) => .ok ("(lists = " ++ toString lists ++ ")")
    | _ => .error "invalid IVFFlat options"
  | "ivf" =>
    match index.options with
    | some (.ivf lists quantizer) =>
        .ok ("(lists = " ++ toString lists ++ ", quantizer = " ++ quantizer ++ ")")
    | _ => .error "invalid IVF options"
  | "ScaNN" =>
    match index.options with
    | some (.scann numLeaves quantizer) =>
        .ok ("(num_leaves = " ++ toString numLeaves ++ ", quantizer = " ++ quantizer ++ ")")
    | _ => .error "invalid ScaNN options"
  | other =>
      .error ("invalid index options of type: " ++ other ++ " and options: "
        ++ govReprOptions index.options)

/-- Discriminator: does the shape of the tuning options match the index
type?  (`true` exactly when the corresponding type assertion in
`indexOptions` would succeed.) -/
def optionsShapeMatches (indexType : String) (opts : Option IndexOptions) : Bool :=
  match indexType, opts with
  | "hnsw", some (.hnsw _ _) => true
  | "ivfflat", some (.ivfflat _) => true
  | "ivf", some (.ivf _ _) => true
  | "ScaNN", some (.scann _ _) => true
  | _, _ => false

/-! ## VectorStore configuration

Configuration fields of the alloydb `VectorStore` struct (the engine and
embedder dependencies are passed to each operation as explicit function
parameters instead of being stored). -/

structure VectorStore where
  tableName : String
  schemaName : String
  idColumn : String
  metadataJsonColumn : String
  contentColumn : String
  embeddingColumn : String
  metadataColumns : List String
  k : Int
  distanceStrategy : DistanceStrategy
  deriving DecidableEq, Repr

def defaultIndexNameSuffix : String := "langchainvectorindex"

/-- Embedding of `DropVectorIndex` (src/unnamed/part_008 lines 511-526 and
src/unnamed/part_013 lines 97-112, identical bodies): when `overwrite` is
false the function returns nil immediately without touching the pool;
otherwise it executes one `DROP INDEX IF EXISTS` statement.  The returned
list records every statement handed to `Pool.Exec`. -/
def VectorStore.DropVectorIndex (vs : VectorStore) (exec : String → Except String Unit)
    (indexName : String) (overwrite : Bool) : GoResult Unit × List String :=
  if !overwrite then (.ok (), [])
  else
    let name := if indexName = "" then vs.tableName ++ defaultIndexNameSuffix else indexName
    let query := "DROP INDEX IF EXISTS " ++ name ++ ";"
    match exec query with
    | .ok _ => (.ok (), [query])
    | .error e => (.error ("failed to drop vector index: " ++ e), [query])

/-! ## Go map model

Document metadata maps and decoded result rows (`map[string]any`) are
modelled as association lists with unique keys; `lookupVal`, `eraseKey`
and `setKey` are the map read, `delete` and assignment operations. -/

def lookupVal (key : String) : List (String × Value) → Option Value
  | [] => none
  | (k, v) :: rest => if k = key then some v else lookupVal key rest

def eraseKey (key : String) : List (String × Value) → List (String × Value)
  | [] => []
  | (k, v) :: rest => if k = key then eraseKey key rest else (k, v) :: eraseKey key rest

def setKey (key : String) (v : Value) : List (String × Value) → List (String × Value)
  | [] => [(key, v)]
  | (k, w) :: rest => if k = key then (key, v) :: rest else (k, w) :: setKey key v rest

/-- Reading `row[col]` where a missing key yields the nil interface. -/
def rowGet (row : List (String × Value)) (col : String) : Value :=
  (lookupVal col row).getD .null

/-! ## JSON marshalling model

Modelled from the spec: `encoding/json` is an external standard-library
collaborator; the spec requires that the residual metadata map is
JSON-encoded and that an empty map encodes to the two-character object
`\x7b\x7d`.  Like `json.Marshal`, object keys are emitted in sorted
order.  The encoder is total on `Value` (every representable metadata
value is marshallable, so the marshal-error branch of the source is
unreachable in the model). -/

def jsonEscape (s : String) : String :=
  String.join (s.data.map fun c =>
    if c = '"' then "\\\"" else if c = '\\' then "\\\\" else String.singleton c)

def jsonEncodeValue : Value → String
  | .null => "null"
  | .str s => "\"" ++ jsonEscape s ++ "\""
  | .int n => toString n
  | .float64 q => toString q
  | .bytes b => "\"" ++ jsonEscape b ++ "\""

def insertSortedByKey (p : String × Value) :
    List (String × Value) → List (String × Value)
  | [] => [p]
  | q :: rest => if p.1 ≤ q.1 then p :: q :: rest else q :: insertSortedByKey p rest

def sortByKey : List (String × Value) → List (String × Value)
  | [] => []
  | p :: rest => insertSortedByKey p (sortByKey rest)

def jsonEncodeObj (md : List (String × Value)) : String :=
  "\x7b" ++ joinSep ","
      ((sortByKey md).map fun p => "\"" ++ jsonEscape p.1 ++ "\":" ++ jsonEncodeValue p.2)
    ++ "\x7d"

/-! ## Documents -/

/-- The `schema.Document` boundary type.  `metadata = none` models a nil Go
map; the score payload of `float32` is carried as a rational. -/
structure Document where
  pageContent : String
  metadata : Option (List (String × Value))
  score : ℚ := 0
  deriving DecidableEq, Repr

/-! ## AddDocuments row construction (src/unnamed/part_008 lines 306-349,
src/vectorstores/alloydb/vectorestores.go lines 112-150)

Each document yields one INSERT statement; declared metadata columns are
projected out of the metadata map (present keys are bound as parameters
and deleted from the map, absent ones appear as the literal `NULL`), and
the residual map is marshalled into the JSON column when configured. -/

/-- One slot of the generated VALUES tuple: a bound parameter or the SQL
literal `NULL`. -/
inductive Slot where
  | bound (v : Value)
  | null
  deriving DecidableEq, Repr

/-- The metadata-projection loop of AddDocuments: one slot per declared
metadata column, in declaration order; a key found in the map is bound
and deleted from it. -/
def projectMetadata (cols : List String) (md : List (String × Value)) :
    List Slot × List (String × Value) :=
  match cols with
  | [] => ([], md)
  | c :: rest =>
    match lookupVal c md with
    | some v =>
      let r := projectMetadata rest (eraseKey c md)
      (Slot.bound v :: r.1, r.2)
    | none =>
      let r := projectMetadata rest md
      (Slot.null :: r.1, r.2)

/-- Incremental rendering of the VALUES tuple tail: `startCount` is the
number of parameters bound so far (`len(values)` in the source). -/
def renderSlots (startCount : Nat) : List Slot → String
  | [] => ""
  | .bound _ :: rest => ", $" ++ toString (startCount + 1) ++ renderSlots (startCount + 1) rest
  | .null :: rest => ", NULL" ++ renderSlots startCount rest

/-- The bound parameter values contributed by the metadata slots. -/
def boundValues (slots : List Slot) : List Value :=
  slots.filterMap fun s => match s with | .bound v => some v | .null => none

/-- Result of building one row of the insert batch: the statement text,
the bound parameter list, and the residual metadata map left after
projection (this is the state of the caller's aliased map). -/
structure RowInsert where
  stmt : String
  values : List Value
  residual : List (String × Value)
  deriving DecidableEq, Repr

/-- Embedding of one iteration of the AddDocuments insert loop. -/
def buildInsertRow (vs : VectorStore) (id content embeddingStr : String)
    (md : List (String × Value)) : RowInsert :=
  let metadataColNames :=
    if vs.metadataColumns.length > 0
      then ", " ++ joinSep ", " vs.metadataColumns else ""
  let metadataColNames :=
    if vs.metadataJsonColumn ≠ ""
      then metadataColNames ++ ", " ++ vs.metadataJsonColumn else metadataColNames
  let insertStmt := "INSERT INTO \"" ++ vs.schemaName ++ "\".\"" ++ vs.tableName
    ++ "\" (" ++ vs.idColumn ++ ", " ++ vs.contentColumn ++ ", " ++ vs.embeddingColumn
    ++ metadataColNames ++ ")"
  let proj := projectMetadata vs.metadataColumns md
  let baseValues : List Value := [.str id, .str content, .str embeddingStr]
  let valuesHead := "VALUES ($1, $2, $3" ++ renderSlots 3 proj.1
  if vs.metadataJsonColumn ≠ "" then
    { stmt := insertStmt ++ valuesHead
        ++ ", $" ++ toString (3 + (boundValues proj.1).length + 1) ++ ")"
      values := baseValues ++ boundValues proj.1 ++ [.bytes (jsonEncodeObj proj.2)]
      residual := proj.2 }
  else
    { stmt := insertStmt ++ valuesHead ++ ")"
      values := baseValues ++ boundValues proj.1
      residual := proj.2 }

/-- Embedding of `vectorToString` (src/unnamed/part_008 lines 552-565).
The per-element text is produced by `strconv.FormatFloat`, an external
standard-library collaborator passed in as `fmtFloat`. -/
def vectorToString (fmtFloat : ℚ → String) (vec : List ℚ) : String :=
  "[" ++ joinSep "," (vec.map fmtFloat) ++ "]"

/-! ## AddDocuments (VectorStore revision)

Embedding of `(vs *VectorStore) AddDocuments` from src/unnamed/part_008
lines 277-357; src/vectorstores/alloydb/vectorestores.go lines 83-158 is
line-for-line identical except that it binds the raw embedding value
instead of `vectorToString` of it.  The external embedder, uuid source,
float formatter and batch submission are explicit dependencies. -/

structure IngestDeps where
  embedDocuments : List String → Except String (List (List ℚ))
  uuid : Nat → String
  fmtFloat : ℚ → String
  sendBatch : List RowInsert → Except String Unit

/-- The id-resolution pass: `metadata["id"]` when present and
string-typed, else a fresh uuid (indexed by document position). -/
def resolveIds (uuid : Nat → String) : Nat → List Document → List String
  | _, [] => []
  | i, doc :: rest =>
    (match doc.metadata with
      | some md =>
        match lookupVal "id" md with
        | some (.str s) => s
        | _ => uuid i
      | none => uuid i) :: resolveIds uuid (i + 1) rest

/-- The insert loop of AddDocuments.  Accessing `embeddings[i]` beyond the
end of the embedder's result is a Go runtime panic.  Because the per-doc
`metadata` variable aliases the caller's map, the returned document list
reflects the deletions performed by projection: documents processed
before a panic keep their mutations, later ones are untouched. -/
def buildRows (vs : VectorStore) (fmtFloat : ℚ → String) :
    List String → List Document → List (List ℚ) →
    GoResult (List RowInsert) × List Document
  | [], [], _ => (.ok [], [])
  | _ :: _, doc :: docs, [] => (.panicked "runtime error: index out of range", doc :: docs)
  | id :: ids, doc :: docs, e :: embs =>
    let md := (doc.metadata).getD []
    let row := buildInsertRow vs id doc.pageContent (vectorToString fmtFloat e) md
    let updatedDoc :=
      match doc.metadata with
      | some _ => { doc with metadata := some row.residual }
      | none => doc
    let r := buildRows vs fmtFloat ids docs embs
    (match r.1 with
      | .ok rows => .ok (row :: rows)
      | other => other,
     updatedDoc :: r.2)
  | _, _, _ => (.ok [], [])

/-- Outcome of an AddDocuments call: the Go return value, the batch
contents actually handed to `SendBatch` (empty when it was never
reached), and the caller's documents after the call. -/
structure AddDocumentsOutcome where
  result : GoResult (List String)
  sent : List RowInsert
  finalDocs : List Document
  deriving Repr

/-- Embedding of the VectorStore revision of `AddDocuments`.  Note that no
embedding-count check is performed before the insert loop. -/
def VectorStore.AddDocuments (vs : VectorStore) (deps : IngestDeps)
    (docs : List Document) : AddDocumentsOutcome :=
  let texts := docs.map (·.pageContent)
  match deps.embedDocuments texts with
  | .error e =>
      { result := .error ("failed embed documents: " ++ e), sent := [], finalDocs := docs }
  | .ok embeddings =>
    let ids := resolveIds deps.uuid 0 docs
    let br := buildRows vs deps.fmtFloat ids docs embeddings
    match br.1 with
    | .ok rows =>
      match deps.sendBatch rows with
      | .ok _ => { result := .ok ids, sent := rows, finalDocs := br.2 }
      | .error e =>
          { result := .error ("failed to execute batch: " ++ e), sent := rows, finalDocs := br.2 }
    | .error m => { result := .error m, sent := [], finalDocs := br.2 }
    | .panicked m => { result := .panicked m, sent := [], finalDocs := br.2 }

/-! ## AddDocuments (PostgresEngine revision)

Embedding of `(p *PostgresEngine) AddDocuments` from src/unnamed/part_008
lines 26-66: this revision checks that the embedder returned exactly one
vector per (deduplicated) document before queueing anything. -/

/-- A parameter bound by the engine revision's insert statement. -/
inductive EngineArg where
  | str (s : String)
  | vecArg (v : List ℚ)
  | metadata (md : Option (List (String × Value)))
  deriving DecidableEq, Repr

structure EngineOptions where
  embedder : Option (List String → Except String (List (List ℚ)))
  deduplicater : Option (Document → Bool)

structure EngineStoreConfig where
  embeddingTableName : String
  collectionUUID : String
  deriving DecidableEq, Repr

/-- Embedding of `deduplicate` (src/unnamed/part_008 lines 68-85). -/
def deduplicate (opts : EngineOptions) (docs : List Document) : List Document :=
  match opts.deduplicater with
  | none => docs
  | some d => docs.filter fun doc => !d doc

/-- Embedding of the engine revision of `AddDocuments`; the second
component records the rows queued and submitted to `SendBatch`.  Calling
through a nil embedder interface is a Go runtime panic. -/
def PostgresEngine.AddDocuments (cfg : EngineStoreConfig) (opts : EngineOptions)
    (uuid : Nat → String) (sendBatch : List (String × List EngineArg) → Except String Unit)
    (docs : List Document) : GoResult (List String) × List (String × List EngineArg) :=
  let docs := deduplicate opts docs
  let texts := docs.map (·.pageContent)
  match opts.embedder with
  | none =>
      (.panicked "runtime error: invalid memory address or nil pointer dereference", [])
  | some embedder =>
    match embedder texts with
    | .error e => (.error e, [])
    | .ok vectors =>
      if vectors.length ≠ docs.length then
        (.error "number of vectors from embedder does not match number of documents", [])
      else
        let sql := "INSERT INTO " ++ cfg.embeddingTableName
          ++ " (uuid, document, embedding, cmetadata, collection_id)\n\t\tVALUES($1, $2, $3, $4, $5)"
        let rows := (List.zip (List.range docs.length) (List.zip docs vectors)).map
          fun p => (sql, [EngineArg.str (uuid p.1), EngineArg.str p.2.1.pageContent,
            EngineArg.vecArg p.2.2, EngineArg.metadata p.2.1.metadata,
            EngineArg.str cfg.collectionUUID])
        match sendBatch rows with
        | .ok _ => (.ok ((List.range docs.length).map uuid), rows)
        | .error e => (.error e, rows)

/-! ## SimilaritySearch (src/unnamed/part_008 lines 361-418)

The generated SELECT and the arguments bound by `executeSQLQuery`; the
`numDocuments` parameter of the Go function is declared as `_` and never
used — the LIMIT placeholder is always bound to the configured `vs.k`. -/

/-- A query sent to the pool: statement text, the query vector bound to
`$1`, and the limit value bound to `$2`. -/
structure QueryCall where
  stmt : String
  vectorArg : List ℚ
  limitArg : Int
  deriving DecidableEq, Repr

abbrev ResultRow := List (String × Value)

/-- The SELECT statement text composed by SimilaritySearch. -/
def similaritySearchStmt (vs : VectorStore) (filters : String) : String :=
  let columns := vs.metadataColumns ++ [vs.idColumn, vs.contentColumn, vs.embeddingColumn]
  let columns := if vs.metadataJsonColumn ≠ "" then columns ++ [vs.metadataJsonColumn] else columns
  let columnNames := "\" " ++ joinSep "\", \"" columns ++ "\""
  let whereClause := if filters ≠ "" then "WHERE " ++ filters else ""
  "\n        SELECT " ++ columnNames ++ ", " ++ vs.distanceStrategy.searchFunction
    ++ "(" ++ vs.embeddingColumn ++ ", $1) AS distance FROM \"" ++ vs.schemaName
    ++ "\".\"" ++ vs.tableName ++ "\" " ++ whereClause ++ " ORDER BY "
    ++ vs.embeddingColumn ++ " " ++ vs.distanceStrategy.operator ++ " $1 LIMIT $2;"

/-- Embedding of `executeSQLQuery` (lines 398-418): binds the embedding to
`$1` and `vs.k` to `$2`; row scanning and iteration failures are folded
into the pool function's error result. -/
def VectorStore.executeSQLQuery (vs : VectorStore)
    (queryFn : QueryCall → Except String (List ResultRow)) (stmt : String)
    (embedding : List ℚ) : Except String (List ResultRow) × QueryCall :=
  let call : QueryCall := { stmt := stmt, vectorArg := embedding, limitArg := vs.k }
  match queryFn call with
  | .ok rows => (.ok rows, call)
  | .error e => (.error ("failed to execute similar search query: " ++ e), call)

/-! ## Result decoding (src/unnamed/part_008 lines 420-450) -/

/-- The overlay loop `for _, col := range vs.metadataColumns` of the
result decoder: explicit columns win on key collision with the decoded
JSON object. -/
def mergeColumns (row : ResultRow) (cols : List String)
    (md : List (String × Value)) : List (String × Value) :=
  match cols with
  | [] => md
  | c :: rest =>
    match lookupVal c row with
    | some v => mergeColumns row rest (setKey c v md)
    | none => mergeColumns row rest md

/-- The metadata-JSON step of one iteration of the
`processResultsToDocuments` loop: when the JSON column is configured and
the cell is not nil it must hold bytes that unmarshal successfully. -/
def decodeMetadataCell (vs : VectorStore)
    (decodeJson : String → Except String (List (String × Value)))
    (row : ResultRow) : GoResult (List (String × Value)) :=
  if vs.metadataJsonColumn ≠ "" ∧ rowGet row vs.metadataJsonColumn ≠ Value.null then
    match rowGet row vs.metadataJsonColumn with
    | .bytes b =>
      match decodeJson b with
      | .ok m => .ok m
      | .error e => .error ("failed to unmarshal metadata JSON: " ++ e)
    | other =>
        .error ("expected byte slice for metadata JSON, but got " ++ other.goTypeName)
  else .ok []

/-- The body of one iteration of the `processResultsToDocuments` loop:
decode the JSON metadata column, overlay the declared metadata columns,
read the content through an unchecked string assertion (a Go panic when
the cell is not a string), and require a float64 distance. -/
def decodeRow (vs : VectorStore)
    (decodeJson : String → Except String (List (String × Value)))
    (row : ResultRow) : GoResult Document :=
  match decodeMetadataCell vs decodeJson row with
  | .error e => .error e
  | .panicked m => .panicked m
  | .ok md0 =>
    let md := mergeColumns row vs.metadataColumns md0
    match rowGet row vs.contentColumn with
    | .str content =>
      match rowGet row "distance" with
      | .float64 q => .ok { pageContent := content, metadata := some md, score := q }
      | other =>
          .error ("expected distance to be a floating value, but got " ++ other.goTypeName)
    | other =>
        .panicked ("interface conversion: interface \x7b\x7d is "
          ++ other.goTypeName ++ ", not string")

/-- Embedding of `processResultsToDocuments`: decode each row in order,
returning the first failure and never a partial list. -/
def VectorStore.processResultsToDocuments (vs : VectorStore)
    (decodeJson : String → Except String (List (String × Value))) :
    List ResultRow → GoResult (List Document)
  | [] => .ok []
  | row :: rest =>
    match decodeRow vs decodeJson row with
    | .ok doc =>
      match vs.processResultsToDocuments decodeJson rest with
      | .ok docsOut => .ok (doc :: docsOut)
      | other => other
    | .error e => .error e
    | .panicked m => .panicked m

/-- External dependencies of SimilaritySearch. -/
structure SearchDeps where
  embedQuery : String → Except String (List ℚ)
  queryFn : QueryCall → Except String (List ResultRow)
  decodeJson : String → Except String (List (String × Value))

/-- Embedding of the VectorStore revision of `SimilaritySearch`.  The
`numDocuments` parameter is accepted and ignored exactly as in the
source (`_ int`); the recorded list holds every query sent to the pool. -/
def VectorStore.SimilaritySearch (vs : VectorStore) (deps : SearchDeps)
    (query : String) (numDocuments : Int) (filters : String) :
    GoResult (List Document) × List QueryCall :=
  let _ := numDocuments
  match deps.embedQuery query with
  | .error e => (.error ("failed embed query: " ++ e), [])
  | .ok embedding =>
    let stmt := similaritySearchStmt vs filters
    let exq := vs.executeSQLQuery deps.queryFn stmt embedding
    match exq.1 with
    | .error e => (.error ("failed to execute sql query: " ++ e), [exq.2])
    | .ok results =>
      match vs.processResultsToDocuments deps.decodeJson results with
      | .ok docsOut => (.ok docsOut, [exq.2])
      | .error e =>
          (.error ("failed to process Results to Documents with Scores: " ++ e), [exq.2])
      | .panicked m => (.panicked m, [exq.2])

/-! ## Index lifecycle (src/unnamed/part_008 lines 453-494) -/

/-- Embedding of the positional-int `indexOptions` revision
(src/unnamed/part_007 lines 54-93) used by this ApplyVectorIndex
revision. -/
def BaseIndex.indexOptionsFromInts (index : BaseIndex) (indexOpts : List Int) : String :=
  match index.indexType with
  | "hnsw" =>
    match indexOpts with
    | [a, b] => "(m = " ++ toString a ++ ", ef_construction = " ++ toString b ++ ")"
    | _ => "(m = 16, ef_construction = 64)"
  | "ivfflat" =>
    match indexOpts with
    | [a] => "(lists = " ++ toString a ++ ")"
    | _ => "(lists = 100)"
  | "ivf" =>
    match indexOpts with
    | [a] => "(lists = " ++ toString a ++ ", quantizer = sq8)"
    | _ => "(lists = 100, quantizer = sq8)"
  | "ScaNN" =>
    match indexOpts with
    | [a] => "(num_leaves = " ++ toString a ++ ", quantizer = sq8)"
    | _ => "(num_leaves = 5, quantizer = sq8)"
  | _ => ""

/-- Go `%s` rendering of a `[]string`, as used on `index.partialIndexes`. -/
def govReprStrings (l : List String) : String :=
  "[" ++ joinSep " " l ++ "]"

/-- Embedding of `ApplyVectorIndex`: the exactnearestneighbor index type
delegates to DropVectorIndex; otherwise a CREATE INDEX statement is
composed and executed (preceded, for ScaNN, by enabling the extension)
followed by a COMMIT. -/
def VectorStore.ApplyVectorIndex (vs : VectorStore) (exec : String → Except String Unit)
    (index : BaseIndex) (name : String) (concurrently overwrite : Bool)
    (indexOpts : List Int) : GoResult Unit × List String :=
  if index.indexType = "exactnearestneighbor" then
    vs.DropVectorIndex exec name overwrite
  else
    let function := index.distanceStrategy.searchFunction
    let extCalls : List String :=
      if index.indexType = "ScaNN" then ["CREATE EXTENSION IF NOT EXISTS alloydb_scann"] else []
    match (if index.indexType = "ScaNN"
        then exec "CREATE EXTENSION IF NOT EXISTS alloydb_scann" else .ok ()) with
    | .error e => (.error ("failed to create alloydb scann extension: " ++ e), extCalls)
    | .ok _ =>
      let filter :=
        if index.partialIndexes.length > 0
          then "WHERE " ++ govReprStrings index.partialIndexes else ""
      let params := "WITH " ++ index.indexOptionsFromInts indexOpts
      let resolved :=
        if name = ""
          then (if index.name = "" then vs.tableName ++ defaultIndexNameSuffix else index.name)
          else name
      let concurrentlyStr := if concurrently then "CONCURRENTLY" else ""
      let stmt := "CREATE INDEX " ++ concurrentlyStr ++ " " ++ resolved ++ " ON "
        ++ vs.schemaName ++ "." ++ vs.tableName ++ " USING " ++ index.indexType
        ++ " (" ++ vs.embeddingColumn ++ " " ++ function ++ ") " ++ params ++ " " ++ filter
      match exec stmt with
      | .error e => (.error ("failed to execute creation of index: " ++ e), extCalls ++ [stmt])
      | .ok _ =>
        match exec "COMMIT" with
        | .error e =>
            (.error ("failed to commit index: " ++ e), extCalls ++ [stmt, "COMMIT"])
        | .ok _ => (.ok (), extCalls ++ [stmt, "COMMIT"])

/-- Modelled from the spec: the effect of `DROP INDEX IF EXISTS <name>` on
the catalog's set of existing index names (Present → Absent, Absent →
Absent; the statement itself is issued by `DropVectorIndex`). -/
def dropIndexIfExists (indexes : List String) (name : String) : List String :=
  indexes.erase name

/-- The slot a single declared metadata column receives when projected
against a metadata map: the bound value when the key is present, the SQL
NULL literal when absent. -/
def slotOf (md : List (String × Value)) (c : String) : Slot :=
  match lookupVal c md with
  | some v => Slot.bound v
  | none => Slot.null

/-- The in-place effect of AddDocuments on one caller-owned document: a
non-nil metadata map loses every key that names a declared metadata
column; a nil map is untouched. -/
def mutateDoc (vs : VectorStore) (doc : Document) : Document :=
  match doc.metadata with
  | some md =>
      { doc with metadata := some (md.filter fun p => !(vs.metadataColumns.contains p.1)) }
  | none => doc

/-- A sample store configuration used by concrete witnesses. -/
def sampleVS : VectorStore :=
  { tableName := "documents"
    schemaName := "public"
    idColumn := "langchain_id"
    metadataJsonColumn := "langchain_metadata"
    contentColumn := "content"
    embeddingColumn := "embedding"
    metadataColumns := ["region"]
    k := 4
    distanceStrategy := .cosineDistance }

/-- An execution handle that accepts every statement. -/
def okExec : String → Except String Unit := fun _ => .ok ()

/-- The full ordered column list of a generated INSERT statement: id,
content and embedding columns, then every declared metadata column in
declaration order, then the JSON column when configured. -/
def insertColumns (vs : VectorStore) : List String :=
  [vs.idColumn, vs.contentColumn, vs.embeddingColumn] ++ vs.metadataColumns
    ++ (if vs.metadataJsonColumn ≠ "" then [vs.metadataJsonColumn] else [])

/-- The text of the similarity-search SELECT up to (excluding) its ORDER
BY clause. -/
def similaritySearchPrefix (vs : VectorStore) (filters : String) : String :=
  let columns := vs.metadataColumns ++ [vs.idColumn, vs.contentColumn, vs.embeddingColumn]
  let columns := if vs.metadataJsonColumn ≠ "" then columns ++ [vs.metadataJsonColumn] else columns
  let columnNames := "\" " ++ joinSep "\", \"" columns ++ "\""
  let whereClause := if filters ≠ "" then "WHERE " ++ filters else ""
  "\n        SELECT " ++ columnNames ++ ", " ++ vs.distanceStrategy.searchFunction
    ++ "(" ++ vs.embeddingColumn ++ ", $1) AS distance FROM \"" ++ vs.schemaName
    ++ "\".\"" ++ vs.tableName ++ "\" " ++ whereClause

/-- Search dependencies used by concrete witnesses: a fixed query
embedding, a pool returning no rows, a trivial JSON decoder. -/
def sampleSearchDeps : SearchDeps :=
  { embedQuery := fun _ => .ok [1]
    queryFn := fun _ => .ok []
    decodeJson := fun _ => .ok [] }

/-- Ingestion dependencies used by concrete witnesses: one embedding
vector per call, deterministic uuids, a batch sink that accepts
everything. -/
def sampleIngestDeps : IngestDeps :=
  { embedDocuments := fun _ => .ok [[1]]
    uuid := fun n => "uuid-" ++ toString n
    fmtFloat := fun _ => "1"
    sendBatch := fun _ => .ok () }

/-- A document whose metadata holds a key naming a declared metadata
column of `sampleVS`. -/
def sampleDoc : Document :=
  { pageContent := "hello", metadata := some [("region", Value.str "us")] }

/-- Three documents with nil metadata, for the embedding-count-mismatch
scenario. -/
def threeDocs : List Document :=
  [ { pageContent := "a", metadata := none }
  , { pageContent := "b", metadata := none }
  , { pageContent := "c", metadata := none } ]

/-- Ingestion dependencies whose embedder returns only two vectors
(regardless of how many documents were submitted). -/
def mismatchDeps : IngestDeps :=
  { embedDocuments := fun _ => .ok [[1], [2]]
    uuid := fun n => "uuid-" ++ toString n
    fmtFloat := fun _ => "1"
    sendBatch := fun _ => .ok () }

/-- An embedder collaborator returning two vectors for any input. -/
def twoVectorEmbedder : List String → Except String (List (List ℚ)) :=
  fun _ => .ok [[1], [2]]

/-- Engine-revision options carrying `twoVectorEmbedder` and no
deduplicater. -/
def engineOptsTwoVectors : EngineOptions :=
  { embedder := some twoVectorEmbedder, deduplicater := none }

/-- Engine-revision store configuration used by concrete witnesses. -/
def sampleEngineCfg : EngineStoreConfig :=
  { embeddingTableName := "langchain_pg_embedding", collectionUUID := "coll-1" }

/-- A batch sink for the engine revision that accepts everything. -/
def okEngineBatch : List (String × List EngineArg) → Except String Unit := fun _ => .ok ()

/-- A JSON decoder collaborator that fails on every input, modelling
`json.Unmarshal` applied to malformed bytes. -/
def failingDecodeJson : String → Except String (List (String × Value)) :=
  fun _ => .error "invalid character"

/-- A result row whose metadata JSON cell holds malformed bytes. -/
def badJsonRow : ResultRow :=
  [("langchain_metadata", Value.bytes "not-json"),
   ("content", Value.str "x"), ("distance", Value.float64 0)]

/-- A result row whose distance cell holds a string instead of a
float64 (and no metadata JSON cell). -/
def badDistanceRow : ResultRow :=
  [("content", Value.str "x"), ("distance", Value.str "oops")]

/-! ## Helper lemmas -/

theorem eraseKey_eq_filter (c : String) (md : List (String × Value)) :
    eraseKey c md = md.filter (fun p => p.1 != c) := by
  induction md with
  | nil => rfl
  | cons p rest ih =>
    obtain ⟨k, v⟩ := p
    by_cases h : k = c
    · simp [eraseKey, h, ih]
    · simp [eraseKey, h, ih]

theorem lookupVal_eraseKey_ne (a c : String) (md : List (String × Value)) (h : a ≠ c) :
    lookupVal a (eraseKey c md) = lookupVal a md := by
  induction md with
  | nil => rfl
  | cons p rest ih =>
    obtain ⟨k, v⟩ := p
    by_cases hp : k = c
    · have hka : ¬ k = a := fun he => h (he.symm.trans hp)
      rw [eraseKey, if_pos hp, ih, lookupVal, if_neg hka]
    · rw [eraseKey, if_neg hp]
      by_cases hka : k = a
      · rw [lookupVal, if_pos hka, lookupVal, if_pos hka]
      · rw [lookupVal, if_neg hka, lookupVal, if_neg hka, ih]

theorem lookupVal_none_keys (c : String) :
    ∀ (md : List (String × Value)), lookupVal c md = none → ∀ p ∈ md, p.1 ≠ c := by
  intro md
  induction md with
  | nil => intro _ p hp; cases hp
  | cons q rest ih =>
    obtain ⟨k, v⟩ := q
    intro h p hp
    by_cases hk : k = c
    · rw [lookupVal, if_pos hk] at h; cases h
    · rw [lookupVal, if_neg hk] at h
      rcases List.mem_cons.mp hp with hp1 | hp1
      · rw [hp1]; exact hk
      · exact ih h p hp1

theorem projectMetadata_fst (cols : List String) (md : List (String × Value))
    (h : cols.Nodup) : (projectMetadata cols md).1 = cols.map (slotOf md) := by
  induction cols generalizing md with
  | nil => rfl
  | cons c rest ih =>
    obtain ⟨hc, hrest⟩ := List.nodup_cons.mp h
    cases hl : lookupVal c md with
    | some v =>
      have hmap : rest.map (slotOf (eraseKey c md)) = rest.map (slotOf md) :=
        List.map_congr_left fun a ha => by
          have hne : a ≠ c := fun he => hc (he ▸ ha)
          simp [slotOf, lookupVal_eraseKey_ne a c md hne]
      simp [projectMetadata, hl, slotOf, ih _ hrest, hmap]
    | none =>
      simp [projectMetadata, hl, slotOf, ih _ hrest]

theorem projectMetadata_snd (cols : List String) (md : List (String × Value)) :
    (projectMetadata cols md).2 = md.filter (fun p => !(cols.contains p.1)) := by
  induction cols generalizing md with
  | nil => simp [projectMetadata]
  | cons c rest ih =>
    cases hl : lookupVal c md with
    | some v =>
      simp only [projectMetadata, hl]
      rw [ih, eraseKey_eq_filter, List.filter_filter]
      apply List.filter_congr
      intro p _
      by_cases hpc : p.1 = c <;> simp [hpc]
    | none =>
      simp only [projectMetadata, hl]
      rw [ih]
      apply List.filter_congr
      intro p hp
      have hpc : p.1 ≠ c := lookupVal_none_keys c md hl p hp
      simp [hpc]

theorem buildInsertRow_residual (vs : VectorStore) (id content embStr : String)
    (md : List (String × Value)) :
    (buildInsertRow vs id content embStr md).residual
      = (projectMetadata vs.metadataColumns md).2 := by
  simp only [buildInsertRow]
  split <;> rfl

theorem buildRows_eq (vs : VectorStore) (f : ℚ → String) (docs : List Document) :
    ∀ (ids : List String) (embs : List (List ℚ)),
      ids.length = docs.length → docs.length ≤ embs.length →
      buildRows vs f ids docs embs
        = (.ok ((ids.zip (docs.zip embs)).map fun p =>
              buildInsertRow vs p.1 p.2.1.pageContent (vectorToString f p.2.2)
                (p.2.1.metadata.getD [])),
           docs.map fun doc =>
             match doc.metadata with
             | some md =>
                 { doc with metadata := some (projectMetadata vs.metadataColumns md).2 }
             | none => doc) := by
  induction docs with
  | nil =>
    intro ids embs hlen _
    have : ids = [] := List.length_eq_zero.mp (by simpa using hlen)
    subst this
    simp [buildRows]
  | cons d ds ih =>
    intro ids embs hlen hle
    cases ids with
    | nil => simp at hlen
    | cons i is =>
      cases embs with
      | nil => simp at hle
      | cons e es =>
        have h1 : is.length = ds.length := by simpa using hlen
        have h2 : ds.length ≤ es.length := by simpa using hle
        simp only [buildRows, ih is es h1 h2, List.zip_cons_cons, List.map_cons,
          buildInsertRow_residual]
        cases hdm : d.metadata <;> simp [hdm]

theorem resolveIds_length (uuid : Nat → String) (n : Nat) (docs : List Document) :
    (resolveIds uuid n docs).length = docs.length := by
  induction docs generalizing n with
  | nil => rfl
  | cons d ds ih => simp [resolveIds, ih]

theorem dropVectorIndex_issued (vs : VectorStore) (exec : String → Except String Unit)
    (name : String) (ov : Bool) :
    (vs.DropVectorIndex exec name ov).2
      = if ov then ["DROP INDEX IF EXISTS "
            ++ (if name = "" then vs.tableName ++ defaultIndexNameSuffix else name) ++ ";"]
        else [] := by
  cases ov with
  | false => rfl
  | true =>
    simp only [VectorStore.DropVectorIndex, Bool.not_true, Bool.false_eq_true, if_false,
      if_true]
    split <;> rfl

theorem similaritySearchStmt_decomp (vs : VectorStore) (filters : String) :
    similaritySearchStmt vs filters
      = similaritySearchPrefix vs filters ++ " ORDER BY " ++ vs.embeddingColumn
        ++ " " ++ vs.distanceStrategy.operator ++ " $1 LIMIT $2;" := by
  simp [similaritySearchStmt, similaritySearchPrefix, String.append_assoc]

theorem similaritySearch_issued (vs : VectorStore) (deps : SearchDeps)
    (query filters : String) (n : Int) (embedding : List ℚ)
    (hE : deps.embedQuery query = Except.ok embedding) :
    (vs.SimilaritySearch deps query n filters).2
      = [⟨similaritySearchStmt vs filters, embedding, vs.k⟩] := by
  simp only [VectorStore.SimilaritySearch, hE, VectorStore.executeSQLQuery]
  cases hq : deps.queryFn ⟨similaritySearchStmt vs filters, embedding, vs.k⟩ with
  | ok rows => simp only [hq]; split <;> rfl
  | error e => simp only [hq]

theorem joinSep_append (sep : String) (l₂ : List String) :
    ∀ (l₁ : List String), l₁ ≠ [] →
      joinSep sep (l₁ ++ l₂)
        = joinSep sep l₁ ++ (if l₂.isEmpty then "" else sep ++ joinSep sep l₂) := by
  intro l₁
  induction l₁ with
  | nil => intro h; cases h rfl
  | cons a t ih =>
    intro _
    cases t with
    | nil =>
      cases l₂ with
      | nil => simp [joinSep]
      | cons b t₂ => simp [joinSep, String.append_assoc]
    | cons b t₁ =>
      have h2 := ih (List.cons_ne_nil b t₁)
      calc joinSep sep ((a :: b :: t₁) ++ l₂)
          = a ++ sep ++ joinSep sep ((b :: t₁) ++ l₂) := by
            simp [joinSep, List.cons_append]
        _ = a ++ sep ++ (joinSep sep (b :: t₁)
              ++ (if l₂.isEmpty then "" else sep ++ joinSep sep l₂)) := by rw [h2]
        _ = joinSep sep (a :: b :: t₁)
              ++ (if l₂.isEmpty then "" else sep ++ joinSep sep l₂) := by
            simp [joinSep, String.append_assoc]

theorem buildInsertRow_stmt (vs : VectorStore) (id content embStr : String)
    (md : List (String × Value)) :
    (buildInsertRow vs id content embStr md).stmt
      = "INSERT INTO \"" ++ vs.schemaName ++ "\".\"" ++ vs.tableName ++ "\" ("
          ++ joinSep ", " (insertColumns vs) ++ ")"
        ++ "VALUES ($1, $2, $3" ++ renderSlots 3 (projectMetadata vs.metadataColumns md).1
        ++ (if vs.metadataJsonColumn ≠ ""
            then ", $"
              ++ toString (3 + (boundValues (projectMetadata vs.metadataColumns md).1).length + 1)
            else "")
        ++ ")" := by
  have hj3 : ([vs.idColumn, vs.contentColumn, vs.embeddingColumn] : List String) ≠ [] := by
    simp
  have hmerge : ∀ x : String,
      ")" ++ ("VALUES ($1, $2, $3" ++ x) = ")VALUES ($1, $2, $3" ++ x :=
    fun x => by
      rw [← String.append_assoc,
        show (")" : String) ++ "VALUES ($1, $2, $3" = ")VALUES ($1, $2, $3" from rfl]
  by_cases hcols : vs.metadataColumns = []
  · by_cases hj : vs.metadataJsonColumn = ""
    · simp [buildInsertRow, insertColumns, hcols, hj, joinSep, String.append_assoc, hmerge]
    · simp [buildInsertRow, insertColumns, hcols, hj, joinSep, String.append_assoc, hmerge]
  · obtain ⟨x, xs, hx⟩ := List.exists_cons_of_ne_nil hcols
    by_cases hj : vs.metadataJsonColumn = ""
    · rw [insertColumns, hj]
      simp only [ne_eq, not_true_eq_false, if_false, List.append_nil]
      rw [joinSep_append ", " vs.metadataColumns _ hj3, hx]
      simp [buildInsertRow, hj, hx, joinSep, String.append_assoc, hmerge]
    · rw [insertColumns]
      rw [if_pos hj]
      rw [List.append_assoc, joinSep_append ", " (vs.metadataColumns ++ [vs.metadataJsonColumn]) _ hj3]
      rw [joinSep_append ", " [vs.metadataJsonColumn] vs.metadataColumns hcols, hx]
      simp [buildInsertRow, hj, hx, joinSep, String.append_assoc, hmerge]

theorem buildInsertRow_values_json (vs : VectorStore) (id content embStr : String)
    (md : List (String × Value)) (hj : vs.metadataJsonColumn ≠ "") :
    (buildInsertRow vs id content embStr md).values
      = [.str id, .str content, .str embStr]
          ++ boundValues (projectMetadata vs.metadataColumns md).1
          ++ [.bytes (jsonEncodeObj (projectMetadata vs.metadataColumns md).2)] := by
  simp [buildInsertRow, hj]

theorem addDocuments_components (vs : VectorStore) (deps : IngestDeps)
    (docs : List Document) (embeddings : List (List ℚ))
    (hE : deps.embedDocuments (docs.map (·.pageContent)) = Except.ok embeddings)
    (hlen : docs.length ≤ embeddings.length) :
    (vs.AddDocuments deps docs).sent
        = ((resolveIds deps.uuid 0 docs).zip (docs.zip embeddings)).map
            (fun p => buildInsertRow vs p.1 p.2.1.pageContent
              (vectorToString deps.fmtFloat p.2.2) (p.2.1.metadata.getD []))
      ∧ (vs.AddDocuments deps docs).finalDocs
          = docs.map (fun doc =>
              match doc.metadata with
              | some md =>
                  { doc with metadata := some (projectMetadata vs.metadataColumns md).2 }
              | none => doc) := by
  have hb := buildRows_eq vs deps.fmtFloat docs (resolveIds deps.uuid 0 docs) embeddings
    (resolveIds_length deps.uuid 0 docs) hlen
  simp only [VectorStore.AddDocuments, hE, hb]
  cases deps.sendBatch (((resolveIds deps.uuid 0 docs).zip (docs.zip embeddings)).map
      (fun p => buildInsertRow vs p.1 p.2.1.pageContent
        (vectorToString deps.fmtFloat p.2.2) (p.2.1.metadata.getD []))) with
  | ok u => exact ⟨rfl, rfl⟩
  | error e => exact ⟨rfl, rfl⟩

theorem processResults_length (vs : VectorStore)
    (dj : String → Except String (List (String × Value))) :
    ∀ (rows : List ResultRow) (docsOut : List Document),
      vs.processResultsToDocuments dj rows = .ok docsOut → docsOut.length = rows.length := by
  intro rows
  induction rows with
  | nil =>
    intro docsOut h
    simp only [VectorStore.processResultsToDocuments, GoResult.ok.injEq] at h
    simp [← h]
  | cons r rest ih =>
    intro docsOut h
    simp only [VectorStore.processResultsToDocuments] at h
    cases hd : decodeRow vs dj r with
    | ok d =>
      rw [hd] at h
      cases hrec : vs.processResultsToDocuments dj rest with
      | ok ds =>
        rw [hrec] at h
        simp only [GoResult.ok.injEq] at h
        simp [← h, ih ds hrec]
      | error e => rw [hrec] at h; simp at h
      | panicked m => rw [hrec] at h; simp at h
    | error e => rw [hd] at h; simp at h
    | panicked m => rw [hd] at h; simp at h

theorem processResults_error_first (vs : VectorStore)
    (dj : String → Except String (List (String × Value))) (e : String) :
    ∀ (pre : List ResultRow) (row : ResultRow) (post : List ResultRow),
      (∀ r ∈ pre, ∃ d, decodeRow vs dj r = .ok d) →
      decodeRow vs dj row = .error e →
      vs.processResultsToDocuments dj (pre ++ row :: post) = .error e := by
  intro pre
  induction pre with
  | nil =>
    intro row post _ hrow
    simp only [List.nil_append, VectorStore.processResultsToDocuments, hrow]
  | cons p ps ih =>
    intro row post hpre hrow
    obtain ⟨d, hd⟩ := hpre p (List.mem_cons_self p ps)
    have hps : ∀ r ∈ ps, ∃ d, decodeRow vs dj r = .ok d :=
      fun r hr => hpre r (List.mem_cons_of_mem p hr)
    have hrec : vs.processResultsToDocuments dj (ps.append (row :: post)) = .error e :=
      ih row post hps hrow
    simp only [List.cons_append, VectorStore.processResultsToDocuments, hd, hrec]

theorem decodeRow_malformed_json (vs : VectorStore)
    (dj : String → Except String (List (String × Value))) (row : ResultRow)
    (b e : String) (hjson : vs.metadataJsonColumn ≠ "")
    (hcell : rowGet row vs.metadataJsonColumn = Value.bytes b)
    (hdj : dj b = Except.error e) :
    decodeRow vs dj row = .error ("failed to unmarshal metadata JSON: " ++ e) := by
  have hmd : decodeMetadataCell vs dj row
      = .error ("failed to unmarshal metadata JSON: " ++ e) := by
    unfold decodeMetadataCell
    rw [if_pos ⟨hjson, by rw [hcell]; simp⟩, hcell]
    simp [hdj]
  unfold decodeRow
  rw [hmd]

theorem decodeRow_bad_distance (vs : VectorStore)
    (dj : String → Except String (List (String × Value))) (row : ResultRow)
    (md0 : List (String × Value)) (content : String)
    (hmd : decodeMetadataCell vs dj row = .ok md0)
    (hcontent : rowGet row vs.contentColumn = Value.str content)
    (hdist : ∀ q, rowGet row "distance" ≠ Value.float64 q) :
    decodeRow vs dj row
      = .error ("expected distance to be a floating value, but got "
          ++ (rowGet row "distance").goTypeName) := by
  simp only [decodeRow, hmd, hcontent]

theorem similaritySearch_process_error (vs : VectorStore) (deps : SearchDeps)
    (query filters : String) (n : Int) (embedding : List ℚ)
    (results : List ResultRow) (e : String)
    (hE : deps.embedQuery query = Except.ok embedding)
    (hq : deps.queryFn ⟨similaritySearchStmt vs filters, embedding, vs.k⟩
        = Except.ok results)
    (hproc : vs.processResultsToDocuments deps.decodeJson results = .error e) :
    (vs.SimilaritySearch deps query n filters).1
      = .error ("failed to process Results to Documents with Scores: " ++ e) := by
  simp only [VectorStore.SimilaritySearch, hE, VectorStore.executeSQLQuery, hq, hproc]

/-! ## Theorems -/

/-- C9: for each of the three DistanceStrategy variants, `operator()` and
`searchFunction()` are pure constant functions of the variant (they are
total Lean functions of the variant alone, with no state and no failure
mode), mapping Euclidean to `<->`/vector_l2_ops, CosineDistance to
`<=>`/vector_cosine_ops and InnerProduct to `<#>`/vector_ip_ops; the three
operator values are pairwise distinct, as are the three search-function
values. -/
theorem distanceStrategy_tokens_pure_distinct :
    (DistanceStrategy.euclidean.operator = "<->"
      ∧ DistanceStrategy.euclidean.searchFunction = "vector_l2_ops")
    ∧ (DistanceStrategy.cosineDistance.operator = "<=>"
      ∧ DistanceStrategy.cosineDistance.searchFunction = "vector_cosine_ops")
    ∧ (DistanceStrategy.innerProduct.operator = "<#>"
      ∧ DistanceStrategy.innerProduct.searchFunction = "vector_ip_ops")
    ∧ (∀ a b : DistanceStrategy, a ≠ b → a.operator ≠ b.operator)
    ∧ (∀ a b : DistanceStrategy, a ≠ b → a.searchFunction ≠ b.searchFunction) := by
  refine ⟨⟨rfl, rfl⟩, ⟨rfl, rfl⟩, ⟨rfl, rfl⟩, ?_, ?_⟩ <;> decide

/-- C4: whenever the shape of the tuning options does not match the index
type (including an unknown index type), `indexOptions` returns an
error — in particular it never returns a successful (empty or non-empty)
string clause for such a spec. -/
theorem indexOptions_shape_mismatch_typed_error (index : BaseIndex)
    (h : optionsShapeMatches index.indexType index.options = false) :
    (∃ e, index.indexOptions = Except.error e)
      ∧ ∀ s, index.indexOptions ≠ Except.ok s := by
  have hmain : ∃ e, index.indexOptions = Except.error e := by
    unfold BaseIndex.indexOptions
    unfold optionsShapeMatches at h
    split
    · split
      · simp_all
      · exact ⟨_, rfl⟩
    · split
      · simp_all
      · exact ⟨_, rfl⟩
    · split
      · simp_all
      · exact ⟨_, rfl⟩
    · split
      · simp_all
      · exact ⟨_, rfl⟩
    · exact ⟨_, rfl⟩
  refine ⟨hmain, ?_⟩
  obtain ⟨e, he⟩ := hmain
  intro s hs
  rw [he] at hs
  exact Except.noConfusion hs

/-- C4 witness: ivfflat tuning options supplied for an hnsw index are a
shape mismatch and produce an error. -/
theorem indexOptions_shape_mismatch_typed_error_witness :
    optionsShapeMatches "hnsw" (some (IndexOptions.ivfflat 100)) = false
      ∧ ((∃ e, (⟨"idx", "hnsw", some (IndexOptions.ivfflat 100),
            DistanceStrategy.cosineDistance, []⟩ : BaseIndex).indexOptions = Except.error e)
        ∧ ∀ s, (⟨"idx", "hnsw", some (IndexOptions.ivfflat 100),
            DistanceStrategy.cosineDistance, []⟩ : BaseIndex).indexOptions ≠ Except.ok s) :=
  ⟨by decide,
    indexOptions_shape_mismatch_typed_error
      ⟨"idx", "hnsw", some (IndexOptions.ivfflat 100), DistanceStrategy.cosineDistance, []⟩
      (by decide)⟩

/-- C2 counterexample: at the concrete input (index name "myindex",
overwrite = false, an execution handle that would accept anything),
`DropVectorIndex` issues no statement at all and returns nil — a
successful silent no-op, not an OverwriteRequired-class error, refuting
the claim that an error is returned. -/
theorem dropVectorIndex_refusal_counterexample :
    sampleVS.DropVectorIndex okExec "myindex" false = (GoResult.ok (), [])
      ∧ ∀ e, (sampleVS.DropVectorIndex okExec "myindex" false).1 ≠ GoResult.error e := by
  refine ⟨rfl, ?_⟩
  intro e h
  simp [VectorStore.DropVectorIndex] at h

/-- C2 amended: for every store, execution handle and index name, calling
`DropVectorIndex` with overwrite = false issues no statement against the
execution handle (in particular no DROP) and returns nil — a silent
successful no-op rather than an OverwriteRequired error. -/
theorem dropVectorIndex_overwrite_false_silent_noop
    (vs : VectorStore) (exec : String → Except String Unit) (name : String) :
    vs.DropVectorIndex exec name false = (GoResult.ok (), []) := rfl

/-- C3 counterexample: with the configured default k = 4, a call that
supplies the override numResults = 2 still binds 4 as the LIMIT argument
of the one query it issues, refuting the claim that the caller-supplied
override is used. -/
theorem similaritySearch_numResults_ignored_counterexample :
    (sampleVS.SimilaritySearch sampleSearchDeps "q" 2 "").2.map QueryCall.limitArg = [4]
      ∧ (4 : Int) ≠ 2 := by
  refine ⟨rfl, by decide⟩

/-- C3 amended: for every configuration and query (when the query
embedding succeeds), the single SELECT issued by SimilaritySearch orders
rows by the distance operator expression with no direction keyword (SQL
default: ascending) and binds the configured default `vs.k` as its LIMIT
argument; the caller-supplied numResults parameter is ignored — two
calls differing only in numResults are identical. -/
theorem similaritySearch_order_and_limit
    (vs : VectorStore) (deps : SearchDeps) (query filters : String)
    (numResults : Int) (embedding : List ℚ)
    (hE : deps.embedQuery query = Except.ok embedding) :
    (∀ call ∈ (vs.SimilaritySearch deps query numResults filters).2,
        call.limitArg = vs.k
          ∧ call.stmt = similaritySearchPrefix vs filters ++ " ORDER BY "
              ++ vs.embeddingColumn ++ " " ++ vs.distanceStrategy.operator ++ " $1 LIMIT $2;")
    ∧ (∀ n₁ n₂ : Int,
        vs.SimilaritySearch deps query n₁ filters
          = vs.SimilaritySearch deps query n₂ filters) := by
  constructor
  · intro call hc
    rw [similaritySearch_issued vs deps query filters numResults embedding hE] at hc
    rcases List.mem_singleton.mp hc with rfl
    exact ⟨rfl, similaritySearchStmt_decomp vs filters⟩
  · intro n₁ n₂
    rfl

/-- C3 witness: the amended theorem applied at a concrete store and
dependencies. -/
theorem similaritySearch_order_and_limit_witness :
    sampleSearchDeps.embedQuery "q" = Except.ok [1]
      ∧ ((∀ call ∈ (sampleVS.SimilaritySearch sampleSearchDeps "q" 7 "").2,
            call.limitArg = sampleVS.k
              ∧ call.stmt = similaritySearchPrefix sampleVS "" ++ " ORDER BY "
                  ++ sampleVS.embeddingColumn ++ " "
                  ++ sampleVS.distanceStrategy.operator ++ " $1 LIMIT $2;")
        ∧ ∀ n₁ n₂ : Int,
            sampleVS.SimilaritySearch sampleSearchDeps "q" n₁ ""
              = sampleVS.SimilaritySearch sampleSearchDeps "q" n₂ "") :=
  ⟨rfl, similaritySearch_order_and_limit sampleVS sampleSearchDeps "q" "" 7 [1] rfl⟩

/-- C6: for every BaseIndex whose indexType is "exactnearestneighbor",
ApplyVectorIndex delegates to DropVectorIndex regardless of the other
fields: its outcome equals the DropVectorIndex outcome, everything it can
issue is the single idempotent `DROP INDEX IF EXISTS` statement (never a
CREATE), and applying that statement's effect to a catalog in which the
resolved index name is absent leaves the catalog unchanged (no-op). -/
theorem applyVectorIndex_enn_delegates_to_drop
    (vs : VectorStore) (exec : String → Except String Unit) (index : BaseIndex)
    (name : String) (concurrently overwrite : Bool) (indexOpts : List Int)
    (h : index.indexType = "exactnearestneighbor") :
    vs.ApplyVectorIndex exec index name concurrently overwrite indexOpts
        = vs.DropVectorIndex exec name overwrite
      ∧ (vs.ApplyVectorIndex exec index name concurrently overwrite indexOpts).2
          = (if overwrite then ["DROP INDEX IF EXISTS "
              ++ (if name = "" then vs.tableName ++ defaultIndexNameSuffix else name) ++ ";"]
             else [])
      ∧ (∀ s ∈ (vs.ApplyVectorIndex exec index name concurrently overwrite indexOpts).2,
          ∃ nm, s = "DROP INDEX IF EXISTS " ++ nm ++ ";")
      ∧ (∀ indexes : List String,
          (if name = "" then vs.tableName ++ defaultIndexNameSuffix else name) ∉ indexes →
            dropIndexIfExists indexes
              (if name = "" then vs.tableName ++ defaultIndexNameSuffix else name)
              = indexes) := by
  have hdel : vs.ApplyVectorIndex exec index name concurrently overwrite indexOpts
      = vs.DropVectorIndex exec name overwrite := by
    simp [VectorStore.ApplyVectorIndex, h]
  have hiss := dropVectorIndex_issued vs exec name overwrite
  refine ⟨hdel, by rw [hdel, hiss], ?_, ?_⟩
  · intro s hs
    rw [hdel, hiss] at hs
    cases overwrite with
    | false => simp at hs
    | true =>
      rcases List.mem_singleton.mp (by simpa using hs) with rfl
      exact ⟨_, by rw [String.append_assoc]⟩
  · intro indexes hni
    exact List.erase_of_not_mem hni

/-- C6 witness: the theorem applied to a concrete exactnearestneighbor
index specification. -/
theorem applyVectorIndex_enn_delegates_to_drop_witness :
    (⟨"nm", "exactnearestneighbor", none, DistanceStrategy.euclidean, ["p"]⟩ :
        BaseIndex).indexType = "exactnearestneighbor"
      ∧ (sampleVS.ApplyVectorIndex okExec
            ⟨"nm", "exactnearestneighbor", none, DistanceStrategy.euclidean, ["p"]⟩
            "myidx" true true [1]
          = sampleVS.DropVectorIndex okExec "myidx" true
        ∧ (sampleVS.ApplyVectorIndex okExec
              ⟨"nm", "exactnearestneighbor", none, DistanceStrategy.euclidean, ["p"]⟩
              "myidx" true true [1]).2
            = (if true then ["DROP INDEX IF EXISTS "
                ++ (if "myidx" = ""
                    then sampleVS.tableName ++ defaultIndexNameSuffix else "myidx") ++ ";"]
               else [])
        ∧ (∀ s ∈ (sampleVS.ApplyVectorIndex okExec
              ⟨"nm", "exactnearestneighbor", none, DistanceStrategy.euclidean, ["p"]⟩
              "myidx" true true [1]).2,
            ∃ nm, s = "DROP INDEX IF EXISTS " ++ nm ++ ";")
        ∧ (∀ indexes : List String,
            (if "myidx" = ""
                then sampleVS.tableName ++ defaultIndexNameSuffix else "myidx") ∉ indexes →
              dropIndexIfExists indexes
                (if "myidx" = ""
                    then sampleVS.tableName ++ defaultIndexNameSuffix else "myidx")
                = indexes)) :=
  ⟨rfl, applyVectorIndex_enn_delegates_to_drop sampleVS okExec
      ⟨"nm", "exactnearestneighbor", none, DistanceStrategy.euclidean, ["p"]⟩
      "myidx" true true [1] rfl⟩

/-- C5: decode failures of SimilaritySearch results fail closed.  (1) A
successful decode always covers every row — no partial list.  (2) If the
rows before `row` decode and `row` has a malformed metadata JSON cell, the
whole decode returns the unmarshal error (a returned error, not a panic).
(3) If `row`'s metadata step succeeds, its content cell is a string and
its distance cell is not a float64, the whole decode returns the
distance-type error.  (4) A decode error makes the whole SimilaritySearch
call return an error (wrapped), not a partial document list. -/
theorem processResults_decode_errors_fail_closed
    (vs : VectorStore) (dj : String → Except String (List (String × Value)))
    (pre : List ResultRow) (row : ResultRow) (post : List ResultRow)
    (hpre : ∀ r ∈ pre, ∃ d, decodeRow vs dj r = GoResult.ok d) :
    (∀ (rows : List ResultRow) (docsOut : List Document),
        vs.processResultsToDocuments dj rows = .ok docsOut → docsOut.length = rows.length)
    ∧ (∀ b e, vs.metadataJsonColumn ≠ "" →
        rowGet row vs.metadataJsonColumn = Value.bytes b →
        dj b = Except.error e →
        vs.processResultsToDocuments dj (pre ++ row :: post)
          = .error ("failed to unmarshal metadata JSON: " ++ e))
    ∧ (∀ (md0 : List (String × Value)) (content : String),
        decodeMetadataCell vs dj row = .ok md0 →
        rowGet row vs.contentColumn = Value.str content →
        (∀ q, rowGet row "distance" ≠ Value.float64 q) →
        vs.processResultsToDocuments dj (pre ++ row :: post)
          = .error ("expected distance to be a floating value, but got "
              ++ (rowGet row "distance").goTypeName))
    ∧ (∀ (deps : SearchDeps) (query filters : String) (n : Int)
          (embedding : List ℚ) (results : List ResultRow) (e : String),
        deps.embedQuery query = Except.ok embedding →
        deps.queryFn ⟨similaritySearchStmt vs filters, embedding, vs.k⟩
            = Except.ok results →
        deps.decodeJson = dj →
        vs.processResultsToDocuments dj results = .error e →
        (vs.SimilaritySearch deps query n filters).1
          = .error ("failed to process Results to Documents with Scores: " ++ e)) := by
  refine ⟨processResults_length vs dj, ?_, ?_, ?_⟩
  · intro b e hjson hcell hdj
    exact processResults_error_first vs dj _ pre row post hpre
      (decodeRow_malformed_json vs dj row b e hjson hcell hdj)
  · intro md0 content hmd hcontent hdist
    exact processResults_error_first vs dj _ pre row post hpre
      (decodeRow_bad_distance vs dj row md0 content hmd hcontent hdist)
  · intro deps query filters n embedding results e hE hq hdjeq hproc
    exact similaritySearch_process_error vs deps query filters n embedding results e hE hq
      (by rw [hdjeq]; exact hproc)

/-- C5 witness: the theorem applied with an empty prefix and the
malformed-JSON row; its conclusion is then instantiated in the separate
closed facts that the bad rows decode to the expected errors. -/
theorem processResults_decode_errors_fail_closed_witness :
    (∀ r ∈ ([] : List ResultRow), ∃ d, decodeRow sampleVS failingDecodeJson r = GoResult.ok d)
      ∧ ((∀ (rows : List ResultRow) (docsOut : List Document),
            sampleVS.processResultsToDocuments failingDecodeJson rows = .ok docsOut →
              docsOut.length = rows.length)
        ∧ (∀ b e, sampleVS.metadataJsonColumn ≠ "" →
            rowGet badJsonRow sampleVS.metadataJsonColumn = Value.bytes b →
            failingDecodeJson b = Except.error e →
            sampleVS.processResultsToDocuments failingDecodeJson ([] ++ badJsonRow :: [])
              = .error ("failed to unmarshal metadata JSON: " ++ e))
        ∧ (∀ (md0 : List (String × Value)) (content : String),
            decodeMetadataCell sampleVS failingDecodeJson badJsonRow = .ok md0 →
            rowGet badJsonRow sampleVS.contentColumn = Value.str content →
            (∀ q, rowGet badJsonRow "distance" ≠ Value.float64 q) →
            sampleVS.processResultsToDocuments failingDecodeJson ([] ++ badJsonRow :: [])
              = .error ("expected distance to be a floating value, but got "
                  ++ (rowGet badJsonRow "distance").goTypeName))
        ∧ (∀ (deps : SearchDeps) (query filters : String) (n : Int)
              (embedding : List ℚ) (results : List ResultRow) (e : String),
            deps.embedQuery query = Except.ok embedding →
            deps.queryFn ⟨similaritySearchStmt sampleVS filters, embedding, sampleVS.k⟩
                = Except.ok results →
            deps.decodeJson = failingDecodeJson →
            sampleVS.processResultsToDocuments failingDecodeJson results = .error e →
            (sampleVS.SimilaritySearch deps query n filters).1
              = .error ("failed to process Results to Documents with Scores: " ++ e))) :=
  ⟨fun r hr => absurd hr (List.not_mem_nil r),
    processResults_decode_errors_fail_closed sampleVS failingDecodeJson [] badJsonRow []
      (fun r hr => absurd hr (List.not_mem_nil r))⟩

/-- C7: for every ingestion run whose embedder covers all documents, the
rows AddDocuments hands to the batch are built per document by metadata
projection; each metadata key naming a declared metadataColumn is bound
at that column's slot and removed from the residual map (the residual is
exactly the metadata minus the declared columns); the residual map is
JSON-encoded and bound as the final value of the row — the JSON column
value is never omitted and never null — and an empty residual map still
encodes to the two-character empty-object text. -/
theorem addDocuments_metadata_projection_json
    (vs : VectorStore) (deps : IngestDeps) (docs : List Document)
    (embeddings : List (List ℚ)) (id content embStr : String)
    (md : List (String × Value))
    (hnodup : vs.metadataColumns.Nodup) (hjson : vs.metadataJsonColumn ≠ "")
    (hE : deps.embedDocuments (docs.map (·.pageContent)) = Except.ok embeddings)
    (hlen : docs.length ≤ embeddings.length) :
    (vs.AddDocuments deps docs).sent
        = ((resolveIds deps.uuid 0 docs).zip (docs.zip embeddings)).map
            (fun p => buildInsertRow vs p.1 p.2.1.pageContent
              (vectorToString deps.fmtFloat p.2.2) (p.2.1.metadata.getD []))
      ∧ (projectMetadata vs.metadataColumns md).1 = vs.metadataColumns.map (slotOf md)
      ∧ (buildInsertRow vs id content embStr md).residual
          = md.filter (fun p => !(vs.metadataColumns.contains p.1))
      ∧ (buildInsertRow vs id content embStr md).values
          = [.str id, .str content, .str embStr]
              ++ boundValues (projectMetadata vs.metadataColumns md).1
              ++ [.bytes (jsonEncodeObj ((buildInsertRow vs id content embStr md).residual))]
      ∧ jsonEncodeObj [] = "\x7b\x7d" ∧ ("\x7b\x7d" : String).length = 2 := by
  refine ⟨(addDocuments_components vs deps docs embeddings hE hlen).1,
    projectMetadata_fst _ _ hnodup, ?_, ?_, rfl, by decide⟩
  · rw [buildInsertRow_residual, projectMetadata_snd]
  · rw [buildInsertRow_residual]
    exact buildInsertRow_values_json vs id content embStr md hjson

/-- C7 witness: the theorem applied at a one-document ingestion with a
projected key and an empty residual map. -/
theorem addDocuments_metadata_projection_json_witness :
    sampleVS.metadataColumns.Nodup
      ∧ sampleVS.metadataJsonColumn ≠ ""
      ∧ sampleIngestDeps.embedDocuments ([sampleDoc].map (·.pageContent)) = Except.ok [[1]]
      ∧ ((sampleVS.AddDocuments sampleIngestDeps [sampleDoc]).sent
            = ((resolveIds sampleIngestDeps.uuid 0 [sampleDoc]).zip
                  ([sampleDoc].zip [[1]])).map
                (fun p => buildInsertRow sampleVS p.1 p.2.1.pageContent
                  (vectorToString sampleIngestDeps.fmtFloat p.2.2) (p.2.1.metadata.getD []))
          ∧ (projectMetadata sampleVS.metadataColumns [("region", Value.str "us")]).1
              = sampleVS.metadataColumns.map (slotOf [("region", Value.str "us")])
          ∧ (buildInsertRow sampleVS "id0" "hello" "[1]" [("region", Value.str "us")]).residual
              = [("region", Value.str "us")].filter
                  (fun p => !(sampleVS.metadataColumns.contains p.1))
          ∧ (buildInsertRow sampleVS "id0" "hello" "[1]" [("region", Value.str "us")]).values
              = [.str "id0", .str "hello", .str "[1]"]
                  ++ boundValues
                      (projectMetadata sampleVS.metadataColumns [("region", Value.str "us")]).1
                  ++ [.bytes (jsonEncodeObj
                      ((buildInsertRow sampleVS "id0" "hello" "[1]"
                          [("region", Value.str "us")]).residual))]
          ∧ jsonEncodeObj [] = "\x7b\x7d" ∧ ("\x7b\x7d" : String).length = 2) :=
  ⟨by decide, by decide, rfl,
    addDocuments_metadata_projection_json sampleVS sampleIngestDeps [sampleDoc] [[1]]
      "id0" "hello" "[1]" [("region", Value.str "us")]
      (by decide) (by decide) rfl (by decide)⟩

/-- C10 (implicit claim): projection yields exactly one VALUES slot per
declared metadata column, in declaration order; a declared column that is
absent from the metadata map still appears in the INSERT column list and
its slot is the SQL literal NULL (rendered as ", NULL" with no parameter
consumed), while a present key is bound as a parameter. -/
theorem addDocuments_null_slot_per_declared_column
    (vs : VectorStore) (id content embStr : String) (md : List (String × Value))
    (hnodup : vs.metadataColumns.Nodup) :
    (projectMetadata vs.metadataColumns md).1.length = vs.metadataColumns.length
      ∧ (projectMetadata vs.metadataColumns md).1 = vs.metadataColumns.map (slotOf md)
      ∧ (∀ c ∈ vs.metadataColumns, lookupVal c md = none → slotOf md c = Slot.null)
      ∧ (∀ c ∈ vs.metadataColumns, ∀ v, lookupVal c md = some v → slotOf md c = Slot.bound v)
      ∧ (buildInsertRow vs id content embStr md).stmt
          = "INSERT INTO \"" ++ vs.schemaName ++ "\".\"" ++ vs.tableName ++ "\" ("
              ++ joinSep ", " (insertColumns vs) ++ ")"
            ++ "VALUES ($1, $2, $3"
            ++ renderSlots 3 (projectMetadata vs.metadataColumns md).1
            ++ (if vs.metadataJsonColumn ≠ ""
                then ", $" ++ toString
                  (3 + (boundValues (projectMetadata vs.metadataColumns md).1).length + 1)
                else "")
            ++ ")"
      ∧ (∀ (n : Nat) (rest : List Slot),
          renderSlots n (Slot.null :: rest) = ", NULL" ++ renderSlots n rest) := by
  have hfst := projectMetadata_fst vs.metadataColumns md hnodup
  refine ⟨?_, hfst, ?_, ?_, buildInsertRow_stmt vs id content embStr md,
    fun n rest => rfl⟩
  · rw [hfst, List.length_map]
  · intro c _ hc
    simp [slotOf, hc]
  · intro c _ v hv
    simp [slotOf, hv]

/-- C10 witness: the theorem applied at a concrete store whose declared
column "region" is absent from the metadata map. -/
theorem addDocuments_null_slot_per_declared_column_witness :
    sampleVS.metadataColumns.Nodup
      ∧ ((projectMetadata sampleVS.metadataColumns [("x", Value.int 1)]).1.length
            = sampleVS.metadataColumns.length
        ∧ (projectMetadata sampleVS.metadataColumns [("x", Value.int 1)]).1
            = sampleVS.metadataColumns.map (slotOf [("x", Value.int 1)])
        ∧ (∀ c ∈ sampleVS.metadataColumns,
            lookupVal c [("x", Value.int 1)] = none →
              slotOf [("x", Value.int 1)] c = Slot.null)
        ∧ (∀ c ∈ sampleVS.metadataColumns, ∀ v,
            lookupVal c [("x", Value.int 1)] = some v →
              slotOf [("x", Value.int 1)] c = Slot.bound v)
        ∧ (buildInsertRow sampleVS "i" "c" "[1]" [("x", Value.int 1)]).stmt
            = "INSERT INTO \"" ++ sampleVS.schemaName ++ "\".\"" ++ sampleVS.tableName
                ++ "\" (" ++ joinSep ", " (insertColumns sampleVS) ++ ")"
              ++ "VALUES ($1, $2, $3"
              ++ renderSlots 3 (projectMetadata sampleVS.metadataColumns [("x", Value.int 1)]).1
              ++ (if sampleVS.metadataJsonColumn ≠ ""
                  then ", $" ++ toString
                    (3 + (boundValues
                      (projectMetadata sampleVS.metadataColumns [("x", Value.int 1)]).1).length
                      + 1)
                  else "")
              ++ ")"
        ∧ (∀ (n : Nat) (rest : List Slot),
            renderSlots n (Slot.null :: rest) = ", NULL" ++ renderSlots n rest)) :=
  ⟨by decide,
    addDocuments_null_slot_per_declared_column sampleVS "i" "c" "[1]" [("x", Value.int 1)]
      (by decide)⟩

/-- C8 counterexample: ingesting a document whose metadata map holds the
declared column key "region" deletes that key from the caller's map (the
per-document metadata variable aliases the caller's map and the
projection loop calls delete on it) — after the call the caller's
document list is not the one passed in, refuting "no key is added to or
deleted from any caller-owned map". -/
theorem addDocuments_mutates_caller_metadata_counterexample :
    sampleDoc.metadata = some [("region", Value.str "us")]
      ∧ (sampleVS.AddDocuments sampleIngestDeps [sampleDoc]).finalDocs.map Document.metadata
          = [some []]
      ∧ (sampleVS.AddDocuments sampleIngestDeps [sampleDoc]).finalDocs ≠ [sampleDoc] := by
  exact ⟨rfl, by decide, by decide⟩

/-- C8 amended: besides queueing row inserts, AddDocuments mutates the
caller's documents in place: whenever the embedder covers every document,
each document with a non-nil metadata map ends with exactly the keys
naming declared metadataColumns removed (no other key added or removed)
and documents with nil metadata are untouched; no other VectorStore
state is involved. -/
theorem addDocuments_sideeffects_amended
    (vs : VectorStore) (deps : IngestDeps) (docs : List Document)
    (embeddings : List (List ℚ))
    (hE : deps.embedDocuments (docs.map (·.pageContent)) = Except.ok embeddings)
    (hlen : docs.length ≤ embeddings.length) :
    (vs.AddDocuments deps docs).finalDocs = docs.map (mutateDoc vs) := by
  rw [(addDocuments_components vs deps docs embeddings hE hlen).2]
  exact List.map_congr_left fun doc _ => by
    unfold mutateDoc
    cases hdm : doc.metadata with
    | some md => simp [hdm, projectMetadata_snd]
    | none => simp [hdm]

/-- C8 witness: the amended theorem applied at a concrete one-document
ingestion. -/
theorem addDocuments_sideeffects_amended_witness :
    sampleIngestDeps.embedDocuments ([sampleDoc].map (·.pageContent)) = Except.ok [[1]]
      ∧ (sampleVS.AddDocuments sampleIngestDeps [sampleDoc]).finalDocs
          = [sampleDoc].map (mutateDoc sampleVS) :=
  ⟨rfl, addDocuments_sideeffects_amended sampleVS sampleIngestDeps [sampleDoc] [[1]]
    rfl (by decide)⟩

/-- C1: the engine revision of AddDocuments checks the embedder's vector
count — any mismatch returns the count-mismatch error with nothing queued
or submitted.  The VectorStore revision performs no such check: at the
spec's own test point (three documents, two returned vectors) it panics
with a runtime index-out-of-range error instead of returning an
EmbeddingCountMismatch error; no insert is submitted. -/
theorem engine_addDocuments_embedding_count_mismatch
    (cfg : EngineStoreConfig) (opts : EngineOptions) (uuid : Nat → String)
    (sendBatch : List (String × List EngineArg) → Except String Unit)
    (docs : List Document)
    (embedder : List String → Except String (List (List ℚ)))
    (vectors : List (List ℚ))
    (hEm : opts.embedder = some embedder)
    (hres : embedder ((deduplicate opts docs).map (·.pageContent)) = Except.ok vectors)
    (hlen : vectors.length ≠ (deduplicate opts docs).length) :
    PostgresEngine.AddDocuments cfg opts uuid sendBatch docs
        = (.error "number of vectors from embedder does not match number of documents", [])
      ∧ (sampleVS.AddDocuments mismatchDeps threeDocs).result
          = GoResult.panicked "runtime error: index out of range"
      ∧ (sampleVS.AddDocuments mismatchDeps threeDocs).sent = [] := by
  refine ⟨?_, by decide, by decide⟩
  simp only [PostgresEngine.AddDocuments, hEm, hres]
  rw [if_pos hlen]

/-- C1 witness: the theorem applied at the concrete failing input of the
spec's test point — three documents, an embedder returning two vectors. -/
theorem engine_addDocuments_embedding_count_mismatch_witness :
    engineOptsTwoVectors.embedder = some twoVectorEmbedder
      ∧ twoVectorEmbedder ((deduplicate engineOptsTwoVectors threeDocs).map (·.pageContent))
          = Except.ok [[1], [2]]
      ∧ ([[1], [2]] : List (List ℚ)).length ≠ (deduplicate engineOptsTwoVectors threeDocs).length
      ∧ (PostgresEngine.AddDocuments sampleEngineCfg engineOptsTwoVectors
            (fun n => "uuid-" ++ toString n) okEngineBatch threeDocs
            = (.error "number of vectors from embedder does not match number of documents", [])
        ∧ (sampleVS.AddDocuments mismatchDeps threeDocs).result
            = GoResult.panicked "runtime error: index out of range"
        ∧ (sampleVS.AddDocuments mismatchDeps threeDocs).sent = []) :=
  ⟨rfl, rfl, by decide,
    engine_addDocuments_embedding_count_mismatch sampleEngineCfg engineOptsTwoVectors
      (fun n => "uuid-" ++ toString n) okEngineBatch threeDocs twoVectorEmbedder [[1], [2]]
      rfl rfl (by decide)⟩

end LangchainGo
